import Mathlib

/-!
# Verification of the mini-inject dependency-injection container

Shallow embedding of `src/index.cjs` (the authoritative implementation):
`resolveKey`, `isClass`, `DIProxyBuilder`, and the `DI` class with its
`getBinding` / `has` / `get` / `bind` / `subModule` operations.

Modelling decisions, each traced to the source:

* JavaScript values relevant to the claims are modelled by the inductive
  `Value`; object identity (reference equality) is modelled by a fresh
  numeric id allocated from a counter threaded through resolution
  (`RState.nextId`), so `new C(...)` performed twice yields two values
  that are provably distinct.
* Construction functions `(di) => ...` stored in bindings are
  defunctionalized as the syntax `FExpr`, evaluated by `evalF` against the
  owning container — exactly the capability the source's closures use:
  returning a constant, constructing a fresh object, re-entering
  `di.get`, throwing, or the array-of-dependencies function generated by
  `bind` (source lines 207-221).
* A container is a tree: `DI.mk bindings cache subModules`, matching the
  three private fields `#bindings`, `#container`, `#subModules`.
  Sub-module links are embedded by value; none of the verified claims
  involves attaching one sub-module to two parents, so aliasing of
  sub-module references is not observable here.
* JavaScript `Map` is modelled by an association list with `mapGet`,
  `mapSet` (replace in place or append) and `mapDelete`.
* Resolution can genuinely diverge on cyclic dependency graphs (the
  source documents stack exhaustion), so `DI.get`/`evalF` take a fuel
  argument; `Err.fuelOut` marks fuel exhaustion, a model artifact
  distinct from every thrown JavaScript error (`Err.err msg`).
* Primitive symbols: in JavaScript a primitive symbol `s` satisfies
  `typeof s === 'symbol'` but NOT `s instanceof Symbol`; only a boxed
  `Object(s)` passes `instanceof Symbol`.  `Identifiable.sym` models the
  primitive form (what `Symbol('A')` yields), `Identifiable.boxedSym`
  the boxed object form; `resolveKey` treats them differently exactly as
  lines 8-16 of the source do.
-/

/-- Canonical lookup key used by the Binding Table (`#bindings`) and the
Instance Cache (`#container`).  A key is a primitive string, a registry
symbol `Symbol.for(s)` (process-wide: equal strings give the same
symbol — produced by `Token.toSymbol`), or a boxed `Symbol` object
(keyed by object identity, hence by its allocation id). -/
inductive Key where
  | str (s : String)
  | registrySym (s : String)
  | boxedSym (objId : Nat)
deriving DecidableEq, Repr

/-- An injectable identifier as accepted by `resolveKey` (source lines
8-16).  `undef` is the falsy input; `sym` is a *primitive* symbol (its
`objId` field makes distinct symbols with equal descriptions
distinguishable in the model, as in JavaScript); `boxedSym` is a boxed
`Symbol` object; `token (value) (description)` is a `Token` whose
description string was computed at construction time (class `Token`,
lines 18-38); `cls` is a class (own non-writable `prototype`), `fn` a
plain function (own writable `prototype`, so `prototype.constructor`
exists), `arrowFn` an arrow function (no own `prototype` property). -/
inductive Identifiable where
  | undef
  | str (s : String)
  | sym (objId : Nat) (description : String)
  | boxedSym (objId : Nat) (description : String)
  | token (value : Identifiable) (description : String)
  | cls (name : String)
  | fn (name : String)
  | arrowFn (name : String)
deriving DecidableEq, Repr

/-- Errors: `err msg` is a thrown JavaScript `Error` with the given
message; `fuelOut` is exhaustion of the model's fuel (the source would
keep recursing — stack exhaustion on cyclic graphs). -/
inductive Err where
  | err (msg : String)
  | fuelOut
deriving DecidableEq, Repr

/-- `isClass` (source lines 1-6): a function whose own `prototype`
property descriptor exists and is non-writable.  True for `class`
declarations, false for plain functions (writable prototype) and arrow
functions (no prototype), false for every non-function. -/
def isClass : Identifiable → Bool
  | .cls _ => true
  | _ => false

/-- The truthiness test `!injectable` at source line 9: `undefined` and
the empty string are falsy; symbols, objects, functions and non-empty
strings are truthy. -/
def Identifiable.falsy : Identifiable → Bool
  | .undef => true
  | .str s => s.isEmpty
  | _ => false

/-- Display used by the template literal at source line 9
(interpolation of a falsy value). -/
def Identifiable.display : Identifiable → String
  | .undef => "undefined"
  | .str s => s
  | _ => ""

/-- `resolveKey` (source lines 8-16), traced branch by branch:
line 9: falsy input throws;
line 10: a string, or a value passing `instanceof Symbol` (ONLY boxed
  `Symbol` objects — a primitive symbol does not pass), is returned
  unchanged;
line 11: a `Token` yields `token.toSymbol()`, i.e.
  `Symbol.for('__DIToken__[[' + description + ']]')`;
line 12: a truthy `name` property is returned (classes and functions;
  primitive symbols have no `name` property);
line 13: otherwise `toString()` — a primitive symbol reaches this branch
  and yields the string `Symbol(<description>)`; a function with empty
  `name` yields its source text, modelled as that same marker string. -/
def resolveKey : Identifiable → Except Err Key
  | i =>
    if i.falsy then
      .error (.err ("Could not resolve injectable name from \"" ++ i.display ++ "\""))
    else
      match i with
      | .str s => .ok (.str s)
      | .boxedSym objId _ => .ok (.boxedSym objId)
      | .token _ description => .ok (.registrySym ("__DIToken__[[" ++ description ++ "]]"))
      | .sym _ description => .ok (.str ("Symbol(" ++ description ++ ")"))
      | .cls name => if name.isEmpty then .ok (.str "class { }") else .ok (.str name)
      | .fn name => if name.isEmpty then .ok (.str "function () { }") else .ok (.str name)
      | .arrowFn name => if name.isEmpty then .ok (.str "() => { }") else .ok (.str name)
      | .undef => .ok (.str "undefined")

/-- The check at source line 203: `injectable?.prototype?.constructor`
is truthy exactly for classes and plain functions (their prototype
object's `constructor` points back at them); arrow functions have no
`prototype`, and strings/symbols/`undefined` have no own `prototype`
property. -/
def constructable : Identifiable → Bool
  | .cls _ => true
  | .fn _ => true
  | _ => false

/-- Source line 199: `injectable = token instanceof Token ? token.value
: injectable`. -/
def unwrapToken : Identifiable → Identifiable
  | .token value _ => value
  | i => i

/-- The declared name used when invoking the target of an
array-of-dependencies binding (source lines 216-217). -/
def Identifiable.declaredName : Identifiable → String
  | .cls name => name
  | .fn name => name
  | .arrowFn name => name
  | .str s => s
  | _ => ""

/-- A JavaScript value as observable by the claims.  `obj id cname args`
is the result of `new C(...args)` — `id` is its allocation identity, so
two separately constructed objects are distinct values (reference
inequality).  `callResult fname args` abstracts the result of invoking a
plain (non-class) function target with the given arguments (source line
216: `injectable.apply(injectable, resolvedDependencies)`), recording
the invocation form and the arguments passed.  `proxy pid` is the lazy
reference proxy built by `DIProxyBuilder.build()` (source lines 57-65),
identified by its allocation id. -/
inductive Value where
  | undef
  | num (n : Int)
  | strV (s : String)
  | obj (id : Nat) (className : String) (args : List Value)
  | callResult (fname : String) (args : List Value)
  | proxy (pid : Nat)
deriving Repr

mutual
/-- Defunctionalized construction function `(di) => ...` as stored in a
binding's `func` field.  `lit v` returns a constant; `fresh cname args`
performs `new cname(...)` on evaluated arguments (allocating a fresh
object identity); `getI i` re-enters `di.get(i)` on the owning
container; `throwE msg` throws; `construct target deps` is the function
generated by `bind` for an array of dependencies (source lines
207-221). -/
inductive FExpr where
  | lit (v : Value)
  | fresh (className : String) (args : List FExpr)
  | getI (i : Identifiable)
  | throwE (msg : String)
  | construct (target : Identifiable) (deps : List Dep)

/-- An element of a dependency array (source lines 211-215): a
`DILiteral` wrapper (value passed through unresolved), a `DIFactory`
wrapper (its function, defunctionalized, is invoked with the requesting
container), or any other injectable (resolved via `di.get`). -/
inductive Dep where
  | literalD (v : Value)
  | factoryD (f : FExpr)
  | injD (i : Identifiable)
end

/-- A Binding Table entry (source lines 226-230). -/
structure Binding where
  func : FExpr
  isSingleton : Bool
  lateResolve : Bool

/-- The record returned by `getBinding` (source lines 142-146). -/
structure BindingInfo where
  isSingleton : Bool
  lateResolve : Bool
  resolveFunction : FExpr

/-- A container: the three private fields of class `DI` — `#bindings`
(Binding Table), `#container` (Instance Cache) and `#subModules`. -/
inductive DI where
  | mk (bindings : List (Key × Binding)) (cache : List (Key × Value)) (subModules : List DI)

def DI.bindings : DI → List (Key × Binding)
  | .mk bs _ _ => bs

def DI.cache : DI → List (Key × Value)
  | .mk _ c _ => c

def DI.subModules : DI → List DI
  | .mk _ _ subs => subs

/-- A freshly constructed container (`new DI()`). -/
def DI.empty : DI := .mk [] [] []

theorem DI.bindings_mk (bs : List (Key × Binding)) (cache : List (Key × Value))
    (subs : List DI) : (DI.mk bs cache subs).bindings = bs := rfl

theorem DI.cache_mk (bs : List (Key × Binding)) (cache : List (Key × Value))
    (subs : List DI) : (DI.mk bs cache subs).cache = cache := rfl

theorem DI.subModules_mk (bs : List (Key × Binding)) (cache : List (Key × Value))
    (subs : List DI) : (DI.mk bs cache subs).subModules = subs := rfl

/-- Resolution-global state: the fresh-identity counter (for object and
proxy identities) and the store of proxy cells.  A proxy cell records
the construction function captured by the proxy's getter
`() => binding.func(this)` (source line 104); its forcing behaviour is
modelled by `ProxyBuilder` below. -/
structure RState where
  nextId : Nat
  proxies : List (Nat × FExpr)

def RState.bump (rs : RState) : RState :=
  { rs with nextId := rs.nextId + 1 }

/-- `Map.prototype.get`: first (unique) entry for the key. -/
def mapGet : List (Key × α) → Key → Option α
  | [], _ => none
  | (k, a) :: rest, key => if k = key then some a else mapGet rest key

/-- `Map.prototype.set`: replace the entry in place if the key is
present, else append (JavaScript `Map` preserves insertion order). -/
def mapSet : List (Key × α) → Key → α → List (Key × α)
  | [], key, a => [(key, a)]
  | (k, b) :: rest, key, a =>
    if k = key then (k, a) :: rest else (k, b) :: mapSet rest key a

/-- `Map.prototype.delete`: remove the entry for the key. -/
def mapDelete : List (Key × α) → Key → List (Key × α)
  | [], _ => []
  | (k, b) :: rest, key =>
    if k = key then rest else (k, b) :: mapDelete rest key

mutual
/-- `getBinding` after key resolution (source lines 132-147): a local
binding yields its info record; otherwise the sub-modules are consulted
in registration order. -/
def DI.getBindingByKey : DI → Key → Option BindingInfo
  | .mk bs _ subs, key =>
    match mapGet bs key with
    | some b => some ⟨b.isSingleton, b.lateResolve, b.func⟩
    | none => getBindingByKeyList subs key
def getBindingByKeyList : List DI → Key → Option BindingInfo
  | [], _ => none
  | d :: rest, key =>
    match d.getBindingByKey key with
    | some r => some r
    | none => getBindingByKeyList rest key
end

/-- `getBinding` (source lines 132-147), including the key resolution at
line 133, which can throw. -/
def DI.getBinding (d : DI) (i : Identifiable) : Except Err (Option BindingInfo) :=
  (resolveKey i).map d.getBindingByKey

/-- `has` restricted to an already-resolved key. -/
def DI.hasKey (d : DI) (key : Key) : Bool :=
  (d.getBindingByKey key).isSome

/-- `has` (source lines 149-151): `Boolean(this.getBinding(injectable))`. -/
def DI.has (d : DI) (i : Identifiable) : Except Err Bool :=
  (resolveKey i).map d.hasKey

/-- The unresolved-binding error message (source line 170): the template
literal interpolates the key.  For a string key this is the string
itself; interpolating a (registry or boxed) symbol key in a template
literal actually throws a TypeError in JavaScript — modelled by the
corresponding marker message, and exercised by no claim. -/
def keyDisplay : Key → String
  | .str s => s
  | .registrySym _ => "TypeError: Cannot convert a Symbol to a string"
  | .boxedSym _ => "Symbol()"

def unresolvedMsg (key : Key) : String :=
  "No binding for injectable \"" ++ keyDisplay key ++ "\""

mutual
/-- `get` (source lines 153-182).  `fb = none` models omitting the
fallback argument, `fb = some v` models passing it (`arguments.length >
1` at line 168 — an explicit `undefined` is `some .undef`).  Returns the
resolved value together with the updated container and resolution
state. -/
def DI.get : Nat → DI → RState → Identifiable → Option Value → Except Err (Value × DI × RState)
  | 0, _, _, _, _ => .error .fuelOut
  | fuel + 1, .mk bs cache subs, rs, i, fb =>
    match resolveKey i with
    | .error e => .error e
    | .ok key =>
      match mapGet bs key with
      | none =>
        -- lines 158-170: try the sub-modules in order, else fallback, else throw
        match trySubs (fuel + 1) subs rs i key with
        | some (.error e) => .error e
        | some (.ok (v, subs', rs')) => .ok (v, .mk bs cache subs', rs')
        | none =>
          match fb with
          | some v => .ok (v, .mk bs cache subs, rs)
          | none => .error (.err (unresolvedMsg key))
      | some b =>
        if !b.isSingleton then
          -- line 172: fresh construction on every call, never cached
          evalF fuel (.mk bs cache subs) rs b.func
        else
          match mapGet cache key with
          | some v => .ok (v, .mk bs cache subs, rs)  -- line 181 on a cache hit
          | none =>
            if b.lateResolve then
              -- line 175: cache a proxy without invoking the construction function
              let pid := rs.nextId
              .ok (.proxy pid, .mk bs (mapSet cache key (.proxy pid)) subs,
                   { nextId := pid + 1, proxies := rs.proxies ++ [(pid, b.func)] })
            else
              -- lines 177-178: construct now, cache, return
              match evalF fuel (.mk bs cache subs) rs b.func with
              | .error e => .error e
              | .ok (v, d', rs') =>
                .ok (v, .mk d'.bindings (mapSet d'.cache key v) d'.subModules, rs')

termination_by fuel d _ _ _ => (fuel, sizeOf d, 0)

/-- The sub-module walk of lines 158-161: the first sub-module whose
`has` succeeds resolves the key via its own `get` (no fallback is
passed down); `none` means no sub-module has the key. -/
def trySubs : Nat → List DI → RState → Identifiable → Key → Option (Except Err (Value × List DI × RState))
  | _, [], _, _, _ => none
  | fuel, s :: rest, rs, i, key =>
    if s.hasKey key then
      match DI.get fuel s rs i none with
      | .error e => some (.error e)
      | .ok (v, s', rs') => some (.ok (v, s' :: rest, rs'))
    else
      match trySubs fuel rest rs i key with
      | none => none
      | some (.error e) => some (.error e)
      | some (.ok (v, rest', rs')) => some (.ok (v, s :: rest', rs'))

termination_by fuel subs _ _ _ => (fuel, sizeOf subs, 0)

/-- Evaluation of a defunctionalized construction function against the
owning container (`binding.func(this)`). -/
def evalF : Nat → DI → RState → FExpr → Except Err (Value × DI × RState)
  | 0, _, _, _ => .error .fuelOut
  | _ + 1, d, rs, .lit v => .ok (v, d, rs)
  | _ + 1, _, _, .throwE msg => .error (.err msg)
  | fuel + 1, d, rs, .getI i => DI.get fuel d rs i none
  | fuel + 1, d, rs, .fresh cname args =>
    match evalFList (fuel + 1) d rs args with
    | .error e => .error e
    | .ok (vals, d', rs') => .ok (.obj rs'.nextId cname vals, d', rs'.bump)
  | fuel + 1, d, rs, .construct target deps =>
    -- lines 210-218: resolve the dependency array, then invoke the target
    match resolveDeps (fuel + 1) d rs deps with
    | .error e => .error e
    | .ok (vals, d', rs') =>
      if isClass target then
        .ok (.obj rs'.nextId target.declaredName vals, d', rs'.bump)
      else
        .ok (.callResult target.declaredName vals, d', rs')

termination_by fuel _ _ e => (fuel, sizeOf e, 1)

/-- Left-to-right evaluation of a list of argument expressions. -/
def evalFList : Nat → DI → RState → List FExpr → Except Err (List Value × DI × RState)
  | _, d, rs, [] => .ok ([], d, rs)
  | 0, _, _, _ :: _ => .error .fuelOut
  | fuel + 1, d, rs, e :: rest =>
    match evalF (fuel + 1) d rs e with
    | .error er => .error er
    | .ok (v, d', rs') =>
      match evalFList (fuel + 1) d' rs' rest with
      | .error er => .error er
      | .ok (vs, d'', rs'') => .ok (v :: vs, d'', rs'')

termination_by fuel _ _ es => (fuel, sizeOf es, 0)

/-- Resolution of one dependency-array element (lines 212-214): a
`DILiteral` yields its stored value unresolved; a `DIFactory` yields
`fn(di)`; anything else is resolved via `di.get` (no fallback). -/
def resolveDep : Nat → DI → RState → Dep → Except Err (Value × DI × RState)
  | _, d, rs, .literalD v => .ok (v, d, rs)
  | 0, _, _, .factoryD _ => .error .fuelOut
  | fuel + 1, d, rs, .factoryD f => evalF (fuel + 1) d rs f
  | 0, _, _, .injD _ => .error .fuelOut
  | fuel + 1, d, rs, .injD i => DI.get fuel d rs i none
termination_by fuel _ _ dep => (fuel, sizeOf dep, 0)

/-- `dependencies.map(...)` of line 211: the elements are resolved left
to right. -/
def resolveDeps : Nat → DI → RState → List Dep → Except Err (List Value × DI × RState)
  | _, d, rs, [] => .ok ([], d, rs)
  | fuel, d, rs, dep :: rest =>
    match resolveDep fuel d rs dep with
    | .error er => .error er
    | .ok (v, d', rs') =>
      match resolveDeps fuel d' rs' rest with
      | .error er => .error er
      | .ok (vs, d'', rs'') => .ok (v :: vs, d'', rs'')
termination_by fuel _ _ ds => (fuel, sizeOf ds, 1)
end

/-- The second argument of `bind` (source line 197): `nullish` models a
falsy `dep` (omitted, `undefined` or `null` — line 201 turns it into an
empty dependency array), `arr` a dependency array, `fnArg` a direct
construction function. -/
inductive DepArg where
  | nullish
  | arr (deps : List Dep)
  | fnArg (f : FExpr)

/-- The options object (source line 223): each field is `none` when the
property is absent, so that the destructuring defaults `isSingleton =
true, lateResolve = false` apply. -/
structure Opts where
  isSingleton : Option Bool := none
  lateResolve : Option Bool := none

/-- `bind` (source lines 197-232), traced step by step:
line 199: a Token target is unwrapped to its wrapped value;
line 201: `dependencies` is `[]` for a falsy `dep`, the array itself for
  an array, `null` for a function;
line 203: with a (possibly empty) dependency array, a non-constructable
  target throws before anything is stored;
lines 207-221: the stored function is the generated
  `FExpr.construct` for a dependency array, or the function itself;
line 223: option defaults;
line 224: the key is resolved from the ORIGINAL (unwrapped-from) value;
line 225: re-binding evicts the cached instance for the key;
lines 226-230: the binding is stored, with `lateResolve` forced to
  `false` when the dependency array is empty. -/
def DI.bind (d : DI) (injectable : Identifiable) (dep : DepArg) (opts : Option Opts) :
    Except Err DI :=
  let token := injectable
  let inj := unwrapToken token
  let dependencies : Option (List Dep) :=
    match dep with
    | .nullish => some []
    | .arr ds => some ds
    | .fnArg _ => none
  let dependenciesArrayIsEmpty : Bool :=
    match dependencies with
    | some [] => true
    | _ => false
  if dependencies.isSome && !constructable inj then
    .error (.err "Array of dependencies requires a constructable injectable")
  else
    let func : FExpr :=
      match dep with
      | .nullish => .construct inj []
      | .arr ds => .construct inj ds
      | .fnArg f => f
    let o := opts.getD {}
    let isSingleton := o.isSingleton.getD true
    let lateResolve := o.lateResolve.getD false
    match resolveKey token with
    | .error e => .error e
    | .ok key =>
      .ok (.mk (mapSet d.bindings key
                  ⟨func, isSingleton, if dependenciesArrayIsEmpty then false else lateResolve⟩)
               (mapDelete d.cache key)
               d.subModules)

/-- `subModule` (source lines 234-236): appends to the ordered
sub-module list. -/
def DI.subModule (d : DI) (modules : List DI) : DI :=
  .mk d.bindings d.cache (d.subModules ++ modules)

mutual
/-- Modelled from the spec: `clear()` is declared in
`src/src/mini-inject.d.ts` (lines 955-979) and exercised by the test
suite, but its implementation is not among the source files.  Per the
spec it resets the container's Binding Table and Instance Cache and
recursively clears every currently attached sub-module, without
detaching the sub-module links themselves. -/
def DI.clear : DI → DI
  | .mk _ _ subs => .mk [] [] (clearList subs)
def clearList : List DI → List DI
  | [] => []
  | d :: rest => d.clear :: clearList rest
end

/-- The state of a `DIProxyBuilder` (source lines 40-66): the private
fields `#hasInstance`, `#__instance` and `#getter`.  The getter — in the
source the thunk `() => binding.func(this)` (line 104) — is modelled
abstractly as a state transformer over `σ`, so that "the construction
function is invoked" is observable as an effect on `σ`. -/
structure ProxyBuilder (σ : Type) (α : Type) where
  hasInstance : Bool
  inst : Option α
  getter : σ → α × σ

/-- A freshly constructed builder (source lines 45-47). -/
def ProxyBuilder.init (g : σ → α × σ) : ProxyBuilder σ α :=
  ⟨false, none, g⟩

/-- `#getInstance` (source lines 49-55): invoke the getter only when no
instance is memoized yet, then memoize.  Every proxy field/method access
goes through this (handler `get`, lines 59-63), so its result is what an
access forwards to. -/
def ProxyBuilder.getInstance [Inhabited α] (p : ProxyBuilder σ α) (s : σ) :
    α × ProxyBuilder σ α × σ :=
  if p.hasInstance then
    (p.inst.getD default, p, s)
  else
    let (a, s') := p.getter s
    (a, { p with hasInstance := true, inst := some a }, s')

/-! ## Helper lemmas about the map operations -/

theorem mapGet_mapSet_self (l : List (Key × α)) (key : Key) (a : α) :
    mapGet (mapSet l key a) key = some a := by
  induction l with
  | nil => simp [mapSet, mapGet]
  | cons hd tl ih =>
    obtain ⟨k, b⟩ := hd
    by_cases h : k = key <;> simp [mapSet, mapGet, h, ih]

theorem mapDelete_of_absent (l : List (Key × α)) (key : Key) (h : mapGet l key = none) :
    mapDelete l key = l := by
  induction l with
  | nil => simp [mapDelete]
  | cons hd tl ih =>
    obtain ⟨k, b⟩ := hd
    by_cases hk : k = key
    · simp [mapGet, hk] at h
    · simp [mapGet, hk] at h
      simp [mapDelete, hk, ih h]

theorem mapDelete_mapSet_of_absent (l : List (Key × α)) (key : Key) (a : α)
    (h : mapGet l key = none) : mapDelete (mapSet l key a) key = l := by
  induction l with
  | nil => simp [mapSet, mapDelete]
  | cons hd tl ih =>
    obtain ⟨k, b⟩ := hd
    by_cases hk : k = key
    · simp [mapGet, hk] at h
    · simp [mapGet, hk] at h
      simp [mapSet, mapDelete, hk, ih h]


/-! ## Resolution never changes any Binding Table

No construction function can re-bind (`FExpr` has no bind operation), so
`get` and function evaluation leave the top-level Binding Table of the
container untouched. -/

mutual
theorem get_preserves_bindings : ∀ (fuel : Nat) (d : DI) (rs : RState) (i : Identifiable)
    (fb : Option Value) (v : Value) (d' : DI) (rs' : RState),
    DI.get fuel d rs i fb = .ok (v, d', rs') → d'.bindings = d.bindings
  | 0, _, _, _, _, _, _, _ => by simp [DI.get]
  | fuel + 1, .mk bs cache subs, rs, i, fb, v, d', rs' => by
    intro h
    simp only [DI.get] at h
    split at h
    · exact absurd h (by simp)
    · split at h
      · split at h
        · exact absurd h (by simp)
        · obtain ⟨rfl, rfl, rfl⟩ := by simpa using h
          rfl
        · split at h
          · obtain ⟨rfl, rfl, rfl⟩ := by simpa using h
            rfl
          · exact absurd h (by simp)
      · split at h
        · exact evalF_preserves_bindings fuel _ _ _ _ _ _ h
        · split at h
          · obtain ⟨rfl, rfl, rfl⟩ := by simpa using h
            rfl
          · split at h
            · obtain ⟨rfl, rfl, rfl⟩ := by simpa using h
              rfl
            · split at h
              · exact absurd h (by simp)
              · obtain ⟨rfl, rfl, rfl⟩ := by simpa using h
                rename_i v0 d0 rs0 heq
                have hb := evalF_preserves_bindings fuel _ _ _ _ _ _ heq
                simpa [DI.bindings] using hb
  termination_by fuel d _ _ _ _ _ _ => (fuel, sizeOf d, 0)

theorem evalF_preserves_bindings : ∀ (fuel : Nat) (d : DI) (rs : RState) (e : FExpr)
    (v : Value) (d' : DI) (rs' : RState),
    evalF fuel d rs e = .ok (v, d', rs') → d'.bindings = d.bindings
  | 0, _, _, _, _, _, _ => by simp [evalF]
  | fuel + 1, d, rs, .lit w, v, d', rs' => by
    intro h
    obtain ⟨rfl, rfl, rfl⟩ := by simpa [evalF] using h
    rfl
  | fuel + 1, d, rs, .throwE msg, v, d', rs' => by simp [evalF]
  | fuel + 1, d, rs, .getI i, v, d', rs' => by
    intro h
    simp only [evalF] at h
    exact get_preserves_bindings fuel _ _ _ _ _ _ _ h
  | fuel + 1, d, rs, .fresh cname args, v, d', rs' => by
    intro h
    simp only [evalF] at h
    split at h
    · exact absurd h (by simp)
    · obtain ⟨rfl, rfl, rfl⟩ := by simpa using h
      rename_i vs0 d0 rs0 heq
      exact evalFList_preserves_bindings (fuel + 1) _ _ _ _ _ _ heq
  | fuel + 1, d, rs, .construct target deps, v, d', rs' => by
    intro h
    simp only [evalF] at h
    split at h
    · exact absurd h (by simp)
    · rename_i vs0 d0 rs0 heq
      split at h
      · obtain ⟨rfl, rfl, rfl⟩ := by simpa using h
        exact resolveDeps_preserves_bindings (fuel + 1) _ _ _ _ _ _ heq
      · obtain ⟨rfl, rfl, rfl⟩ := by simpa using h
        exact resolveDeps_preserves_bindings (fuel + 1) _ _ _ _ _ _ heq
  termination_by fuel _ _ e _ _ _ => (fuel, sizeOf e, 1)

theorem evalFList_preserves_bindings : ∀ (fuel : Nat) (d : DI) (rs : RState)
    (es : List FExpr) (vs : List Value) (d' : DI) (rs' : RState),
    evalFList fuel d rs es = .ok (vs, d', rs') → d'.bindings = d.bindings
  | 0, d, rs, [], vs, d', rs' => by
    intro h
    obtain ⟨rfl, rfl, rfl⟩ := by simpa [evalFList] using h
    rfl
  | fuel + 1, d, rs, [], vs, d', rs' => by
    intro h
    obtain ⟨rfl, rfl, rfl⟩ := by simpa [evalFList] using h
    rfl
  | 0, d, rs, e :: rest, vs, d', rs' => by simp [evalFList]
  | fuel + 1, d, rs, e :: rest, vs, d', rs' => by
    intro h
    simp only [evalFList] at h
    split at h
    · exact absurd h (by simp)
    · rename_i v0 d0 rs0 heq
      split at h
      · exact absurd h (by simp)
      · obtain ⟨rfl, rfl, rfl⟩ := by simpa using h
        rename_i vs1 d1 rs1 heq1
        exact (evalFList_preserves_bindings (fuel + 1) _ _ _ _ _ _ heq1).trans
          (evalF_preserves_bindings (fuel + 1) _ _ _ _ _ _ heq)
  termination_by fuel _ _ es _ _ _ => (fuel, sizeOf es, 0)

theorem resolveDep_preserves_bindings : ∀ (fuel : Nat) (d : DI) (rs : RState)
    (dep : Dep) (v : Value) (d' : DI) (rs' : RState),
    resolveDep fuel d rs dep = .ok (v, d', rs') → d'.bindings = d.bindings
  | fuel, d, rs, .literalD w, v, d', rs' => by
    intro h
    obtain ⟨rfl, rfl, rfl⟩ := by simpa [resolveDep] using h
    rfl
  | 0, d, rs, .factoryD f, v, d', rs' => by simp [resolveDep]
  | fuel + 1, d, rs, .factoryD f, v, d', rs' => by
    intro h
    simp only [resolveDep] at h
    exact evalF_preserves_bindings (fuel + 1) _ _ _ _ _ _ h
  | 0, d, rs, .injD i, v, d', rs' => by simp [resolveDep]
  | fuel + 1, d, rs, .injD i, v, d', rs' => by
    intro h
    simp only [resolveDep] at h
    exact get_preserves_bindings fuel _ _ _ _ _ _ _ h
  termination_by fuel _ _ dep _ _ _ => (fuel, sizeOf dep, 0)

theorem resolveDeps_preserves_bindings : ∀ (fuel : Nat) (d : DI) (rs : RState)
    (ds : List Dep) (vs : List Value) (d' : DI) (rs' : RState),
    resolveDeps fuel d rs ds = .ok (vs, d', rs') → d'.bindings = d.bindings
  | fuel, d, rs, [], vs, d', rs' => by
    intro h
    obtain ⟨rfl, rfl, rfl⟩ := by simpa [resolveDeps] using h
    rfl
  | fuel, d, rs, dep :: rest, vs, d', rs' => by
    intro h
    simp only [resolveDeps] at h
    split at h
    · exact absurd h (by simp)
    · rename_i v0 d0 rs0 heq
      split at h
      · exact absurd h (by simp)
      · obtain ⟨rfl, rfl, rfl⟩ := by simpa using h
        rename_i vs1 d1 rs1 heq1
        exact (resolveDeps_preserves_bindings fuel _ _ _ _ _ _ heq1).trans
          (resolveDep_preserves_bindings fuel _ _ _ _ _ _ heq)
  termination_by fuel _ _ ds _ _ _ => (fuel, sizeOf ds, 1)
end

/-! ## Unfolding lemmas for the branches of `get` -/

theorem getBindingByKey_mk_eq_none (bs : List (Key × Binding)) (cache : List (Key × Value))
    (subs : List DI) (key : Key) :
    (DI.mk bs cache subs).getBindingByKey key = none ↔
      mapGet bs key = none ∧ getBindingByKeyList subs key = none := by
  simp only [DI.getBindingByKey]
  cases mapGet bs key <;> simp

theorem trySubs_eq_none_iff (fuel : Nat) (subs : List DI) (rs : RState) (i : Identifiable)
    (key : Key) :
    trySubs fuel subs rs i key = none ↔ getBindingByKeyList subs key = none := by
  induction subs with
  | nil => simp [trySubs, getBindingByKeyList]
  | cons s rest ih =>
    simp only [trySubs, getBindingByKeyList]
    by_cases hs : s.hasKey key
    · have : ∃ r, s.getBindingByKey key = some r := by
        simpa [DI.hasKey, Option.isSome_iff_exists] using hs
      obtain ⟨r, hr⟩ := this
      simp only [hs, if_true, hr]
      cases DI.get fuel s rs i none with
      | error e => simp
      | ok x => obtain ⟨v, s', rs'⟩ := x; simp
    · have hr : s.getBindingByKey key = none := by
        simpa [DI.hasKey, Option.isSome_iff_exists, Option.eq_none_iff_forall_not_mem] using hs
      simp only [hs, if_false, hr]
      cases htr : trySubs fuel rest rs i key with
      | none => simpa [htr] using ih
      | some r =>
        cases r with
        | error e => simpa [htr] using ih
        | ok x => obtain ⟨v, rest', rs'⟩ := x; simpa [htr] using ih

theorem get_of_hasKey_false (fuel : Nat) (d : DI) (rs : RState) (i : Identifiable)
    (fb : Option Value) (key : Key) (hk : resolveKey i = .ok key)
    (h : d.hasKey key = false) :
    DI.get (fuel + 1) d rs i fb =
      match fb with
      | some v => .ok (v, d, rs)
      | none => .error (.err (unresolvedMsg key)) := by
  obtain ⟨bs, cache, subs⟩ := d
  have hnone : (DI.mk bs cache subs).getBindingByKey key = none := by
    simpa [DI.hasKey, Option.isSome_iff_exists, Option.eq_none_iff_forall_not_mem] using h
  rw [getBindingByKey_mk_eq_none] at hnone
  obtain ⟨hlocal, hsubs⟩ := hnone
  have htr : trySubs (fuel + 1) subs rs i key = none :=
    (trySubs_eq_none_iff _ _ _ _ _).mpr hsubs
  simp only [DI.get, hk, hlocal, htr]

theorem get_found_fb_irrelevant (fuel : Nat) (d : DI) (rs : RState) (i : Identifiable)
    (w : Value) (key : Key) (hk : resolveKey i = .ok key) (h : d.hasKey key = true) :
    DI.get (fuel + 1) d rs i (some w) = DI.get (fuel + 1) d rs i none := by
  obtain ⟨bs, cache, subs⟩ := d
  simp only [DI.get, hk]
  cases hlocal : mapGet bs key with
  | some b => rfl
  | none =>
    cases htr : trySubs (fuel + 1) subs rs i key with
    | some res =>
      cases res with
      | error e => rfl
      | ok x => obtain ⟨v, s', rs'⟩ := x; rfl
    | none =>
      exfalso
      have hsubs := (trySubs_eq_none_iff (fuel + 1) subs rs i key).mp htr
      have : (DI.mk bs cache subs).getBindingByKey key = none :=
        (getBindingByKey_mk_eq_none bs cache subs key).mpr ⟨hlocal, hsubs⟩
      rw [DI.hasKey, this] at h
      simp at h

theorem get_singleton_cached (fuel : Nat) (d : DI) (rs : RState) (i : Identifiable)
    (fb : Option Value) (key : Key) (b : Binding) (v : Value)
    (hk : resolveKey i = .ok key) (hb : mapGet d.bindings key = some b)
    (hsing : b.isSingleton = true) (hc : mapGet d.cache key = some v) :
    DI.get (fuel + 1) d rs i fb = .ok (v, d, rs) := by
  obtain ⟨bs, cache, subs⟩ := d
  simp only [DI.bindings] at hb
  simp only [DI.cache] at hc
  simp only [DI.get, hk, hb, hsing, hc]
  simp

theorem get_nonsingleton (fuel : Nat) (d : DI) (rs : RState) (i : Identifiable)
    (fb : Option Value) (key : Key) (b : Binding)
    (hk : resolveKey i = .ok key) (hb : mapGet d.bindings key = some b)
    (hsing : b.isSingleton = false) :
    DI.get (fuel + 1) d rs i fb = evalF fuel d rs b.func := by
  obtain ⟨bs, cache, subs⟩ := d
  simp only [DI.bindings] at hb
  simp only [DI.get, hk, hb, hsing]
  simp

theorem get_singleton_uncached (fuel : Nat) (d : DI) (rs : RState) (i : Identifiable)
    (fb : Option Value) (key : Key) (b : Binding)
    (hk : resolveKey i = .ok key) (hb : mapGet d.bindings key = some b)
    (hsing : b.isSingleton = true) (hc : mapGet d.cache key = none)
    (hlate : b.lateResolve = false) :
    DI.get (fuel + 1) d rs i fb =
      match evalF fuel d rs b.func with
      | .error e => .error e
      | .ok (v, d', rs') =>
        .ok (v, .mk d'.bindings (mapSet d'.cache key v) d'.subModules, rs') := by
  obtain ⟨bs, cache, subs⟩ := d
  simp only [DI.bindings] at hb
  simp only [DI.cache] at hc
  simp only [DI.get, hk, hb, hsing, hc, hlate]
  simp

theorem get_singleton_late (fuel : Nat) (d : DI) (rs : RState) (i : Identifiable)
    (fb : Option Value) (key : Key) (b : Binding)
    (hk : resolveKey i = .ok key) (hb : mapGet d.bindings key = some b)
    (hsing : b.isSingleton = true) (hc : mapGet d.cache key = none)
    (hlate : b.lateResolve = true) :
    DI.get (fuel + 1) d rs i fb =
      .ok (.proxy rs.nextId,
           .mk d.bindings (mapSet d.cache key (.proxy rs.nextId)) d.subModules,
           { nextId := rs.nextId + 1, proxies := rs.proxies ++ [(rs.nextId, b.func)] }) := by
  obtain ⟨bs, cache, subs⟩ := d
  simp only [DI.bindings] at hb
  simp only [DI.cache] at hc
  simp only [DI.get, hk, hb, hsing, hc, hlate]
  simp [DI.bindings, DI.cache, DI.subModules]

theorem trySubs_delegates (fuel : Nat) (pre : List DI) (s : DI) (post : List DI)
    (rs : RState) (i : Identifiable) (key : Key)
    (hpre : ∀ p ∈ pre, p.hasKey key = false) (hs : s.hasKey key = true) :
    trySubs fuel (pre ++ s :: post) rs i key =
      match DI.get fuel s rs i none with
      | .error e => some (.error e)
      | .ok (v, s', rs') => some (.ok (v, pre ++ s' :: post, rs')) := by
  induction pre with
  | nil =>
    simp only [List.nil_append, trySubs, hs, if_true]
  | cons p rest ih =>
    have hp : p.hasKey key = false := hpre p (by simp)
    have hrest : ∀ q ∈ rest, q.hasKey key = false := fun q hq => hpre q (by simp [hq])
    simp only [List.cons_append, trySubs, hp, Bool.false_eq_true, if_false, ih hrest]
    cases DI.get fuel s rs i none with
    | error e => rfl
    | ok x => obtain ⟨v, s', rs'⟩ := x; rfl

theorem get_delegates (fuel : Nat) (bs : List (Key × Binding)) (cache : List (Key × Value))
    (pre : List DI) (s : DI) (post : List DI) (rs : RState) (i : Identifiable)
    (fb : Option Value) (key : Key)
    (hk : resolveKey i = .ok key) (hlocal : mapGet bs key = none)
    (hpre : ∀ p ∈ pre, p.hasKey key = false) (hs : s.hasKey key = true) :
    DI.get (fuel + 1) (.mk bs cache (pre ++ s :: post)) rs i fb =
      match DI.get (fuel + 1) s rs i none with
      | .error e => .error e
      | .ok (v, s', rs') => .ok (v, .mk bs cache (pre ++ s' :: post), rs') := by
  simp only [DI.get, hk, hlocal, trySubs_delegates (fuel + 1) pre s post rs i key hpre hs]
  cases DI.get (fuel + 1) s rs i none with
  | error e => rfl
  | ok x => obtain ⟨v, s', rs'⟩ := x; rfl

theorem evalF_fresh_nil (fuel : Nat) (d : DI) (rs : RState) (t : String) :
    evalF (fuel + 1) d rs (.fresh t []) = .ok (.obj rs.nextId t [], d, rs.bump) := by
  simp [evalF, evalFList, RState.bump]

/-! ## Helper lemmas about `clear` -/

mutual
theorem clear_getBindingByKey_none : ∀ (d : DI) (key : Key),
    (DI.clear d).getBindingByKey key = none
  | .mk bs cache subs, key => by
    simp only [DI.clear, DI.getBindingByKey, mapGet]
    exact clearList_getBindingByKeyList_none subs key
theorem clearList_getBindingByKeyList_none : ∀ (subs : List DI) (key : Key),
    getBindingByKeyList (clearList subs) key = none
  | [], key => by simp [clearList, getBindingByKeyList]
  | s :: rest, key => by
    simp only [clearList, getBindingByKeyList, clear_getBindingByKey_none s key]
    exact clearList_getBindingByKeyList_none rest key
end

theorem clearList_length : ∀ (subs : List DI), (clearList subs).length = subs.length
  | [] => rfl
  | s :: rest => by simp [clearList, clearList_length rest]

/-! ## Claim theorems -/

/-- C6: for every `bind(target, deps, opts)` where `deps` is an array and the
target is not constructable, `bind` throws an error whose message is exactly
"Array of dependencies requires a constructable injectable".  The check (source
line 203) runs before the Binding Table and Instance Cache writes (lines
225-230), and in this embedding an erroring `bind` produces no new container at
all, so the failed call leaves the caller's Binding Table and Instance Cache
unchanged. -/
theorem claim_C6_nonconstructable_array_bind (d : DI) (target : Identifiable)
    (deps : List Dep) (opts : Option Opts)
    (h : constructable (unwrapToken target) = false) :
    DI.bind d target (.arr deps) opts =
      .error (.err "Array of dependencies requires a constructable injectable") := by
  simp [DI.bind, h]

theorem claim_C6_witness :
    constructable (unwrapToken (.str "C")) = false ∧
    DI.bind DI.empty (.str "C") (.arr [.injD (.cls "A"), .injD (.cls "B")]) none =
      .error (.err "Array of dependencies requires a constructable injectable") :=
  ⟨rfl, claim_C6_nonconstructable_array_bind DI.empty (.str "C")
    [.injD (.cls "A"), .injD (.cls "B")] none rfl⟩

/-- C7 counterexample: the claim says a symbol-like atom is returned unchanged
as the already-canonical key and that two distinct atoms are distinct keys.
On the code this fails for primitive symbols (the only kind `Symbol('A')`
produces): a primitive symbol does not pass `instanceof Symbol` (line 10), has
no `name` property (line 12), and is therefore canonicalised by `toString()`
(line 13) to the string `Symbol(<description>)`.  Hence two distinct symbols
with the same description yield one and the same key, and neither is "the atom
itself": the repository's own test asserts this behaviour
(`index.test.js:179` expects the key `Symbol(B)`). -/
theorem claim_C7_counterexample :
    resolveKey (.sym 0 "A") = .ok (.str "Symbol(A)") ∧
    resolveKey (.sym 1 "A") = .ok (.str "Symbol(A)") ∧
    Identifiable.sym 0 "A" ≠ Identifiable.sym 1 "A" := by
  refine ⟨rfl, rfl, ?_⟩
  decide

/-- C7 amended: `resolveKey` is a pure total function (determinism and absence
of side effects are inherent to the embedding): every non-empty string is its
own key; every falsy/empty input fails with the key-resolution error; a
primitive symbol is canonicalised to the string `Symbol(<description>)` via its
`toString`, so distinct symbols with the same description collide on one key;
only boxed `Symbol` objects (which pass `instanceof Symbol`) are returned
unchanged, and distinct boxed symbols are distinct keys. -/
theorem claim_C7_amended :
    (∀ s : String, ¬ s.isEmpty → resolveKey (.str s) = .ok (.str s)) ∧
    (∀ i : Identifiable, i.falsy = true →
      resolveKey i = .error (.err ("Could not resolve injectable name from \"" ++ i.display ++ "\""))) ∧
    (∀ oid desc, resolveKey (.sym oid desc) = .ok (.str ("Symbol(" ++ desc ++ ")"))) ∧
    (∀ oid desc, resolveKey (.boxedSym oid desc) = .ok (.boxedSym oid)) ∧
    (∀ oid oid' : Nat, oid ≠ oid' → Key.boxedSym oid ≠ Key.boxedSym oid') := by
  refine ⟨?_, ?_, ?_, ?_, ?_⟩
  · intro s hs
    simp [resolveKey, Identifiable.falsy, hs]
  · intro i hi
    simp [resolveKey, hi]
  · intro oid desc
    simp [resolveKey, Identifiable.falsy]
  · intro oid desc
    simp [resolveKey, Identifiable.falsy]
  · intro oid oid' hne
    simpa using hne

theorem claim_C7_amended_witness :
    ¬ ("k".isEmpty = true) ∧ resolveKey (.str "k") = .ok (.str "k") ∧
    (Identifiable.str "").falsy = true ∧
    resolveKey (.str "") = .error (.err "Could not resolve injectable name from \"\"") :=
  ⟨by decide, claim_C7_amended.1 "k" (by decide), by decide,
   claim_C7_amended.2.1 (.str "") (by decide)⟩

/-- C9 counterexample: the claim's own example `bind('X', [], {lateResolve:
true})` does not store a binding at all — a string target with a (possibly
empty) dependency array fails the constructable check at source line 203 and
throws, so `getBinding('X')` afterwards finds nothing (its `lateResolve` is
not `false`; there is no binding).  The repository's test
(`index.test.js:231`) asserts exactly this error for string targets with
dependency arrays. -/
theorem claim_C9_counterexample :
    DI.bind DI.empty (.str "X") (.arr []) (some { lateResolve := some true }) =
      .error (.err "Array of dependencies requires a constructable injectable") ∧
    DI.getBinding DI.empty (.str "X") = .ok none := by
  constructor
  · rfl
  · simp +decide [DI.getBinding, resolveKey, Identifiable.falsy, DI.getBindingByKey, mapGet,
      getBindingByKeyList, Except.map, DI.empty]

/-- C9 amended: for every `bind` on a *constructable* target whose dependency
array is empty, the stored binding has `lateResolve = false` regardless of the
`lateResolve` value passed in `opts`, observably via `getBinding`; the
specific scenario `bind('X', [], {lateResolve: true})` instead throws (the
target `'X'` is a string, hence not constructable) and stores nothing. -/
theorem claim_C9_amended (d : DI) (target : Identifiable) (opts : Option Opts) (key : Key)
    (hcon : constructable (unwrapToken target) = true)
    (hk : resolveKey target = .ok key) :
    ∃ d', DI.bind d target (.arr []) opts = .ok d' ∧
      DI.getBinding d' target =
        .ok (some ⟨(opts.getD {}).isSingleton.getD true, false,
                   .construct (unwrapToken target) []⟩) := by
  refine ⟨.mk (mapSet d.bindings key
      ⟨.construct (unwrapToken target) [], (opts.getD {}).isSingleton.getD true, false⟩)
      (mapDelete d.cache key) d.subModules, ?_, ?_⟩
  · simp [DI.bind, hcon, hk]
  · simp [DI.getBinding, hk, Except.map, DI.getBindingByKey, mapGet_mapSet_self]

theorem claim_C9_amended_witness :
    constructable (unwrapToken (.cls "T")) = true ∧
    ∃ d', DI.bind DI.empty (.cls "T") (.arr []) (some { lateResolve := some true }) = .ok d' ∧
      DI.getBinding d' (.cls "T") =
        .ok (some ⟨true, false, .construct (.cls "T") []⟩) :=
  ⟨rfl, claim_C9_amended DI.empty (.cls "T") (some { lateResolve := some true })
    (.str "T") rfl rfl⟩

/-- C10: `bind(T)` with the second argument omitted or nullish is observably
equivalent to `bind(T, [])` — line 201 turns a falsy `dep` into an empty
dependency array, after which the two calls run identically: same
constructable check, same generated zero-argument construction function, same
`lateResolve` forcing.  In particular a non-constructable target such as a
plain string throws the same "Array of dependencies requires a constructable
injectable" error, and for a class target the stored function constructs the
target with zero arguments. -/
theorem claim_C10_bind_default_deps :
    (∀ (d : DI) (i : Identifiable) (opts : Option Opts),
      DI.bind d i .nullish opts = DI.bind d i (.arr []) opts) ∧
    (∀ (d : DI) (s : String) (opts : Option Opts),
      DI.bind d (.str s) .nullish opts =
        .error (.err "Array of dependencies requires a constructable injectable")) ∧
    (∀ (fuel : Nat) (d : DI) (rs : RState) (n : String),
      evalF (fuel + 1) d rs (.construct (.cls n) []) =
        .ok (.obj rs.nextId n [], d, rs.bump)) := by
  refine ⟨?_, ?_, ?_⟩
  · intro d i opts
    rfl
  · intro d s opts
    rfl
  · intro fuel d rs n
    simp [evalF, resolveDeps, isClass, Identifiable.declaredName]

/-- C1: `get(k, fb)` returns the fallback exactly when `has(k)` is false and a
fallback argument was supplied: (1) on a miss with a supplied fallback —
including an explicitly passed `undefined`, `some .undef`, which line 168
(`arguments.length > 1`) distinguishes from omission — the fallback is
returned and no state changes; (2) on a miss without a fallback the
`UnresolvedBindingError` is thrown; (3) when `has(k)` is true the call behaves
identically with and without a fallback (the fallback is irrelevant, never
returned as such); (4) when a binding for `k` is found but evaluating its
construction function fails (e.g. a nested dependency is unresolved), that
error propagates to the caller even though a fallback was supplied. -/
theorem claim_C1_fallback_semantics :
    (∀ (fuel : Nat) (d : DI) (rs : RState) (i : Identifiable) (fb : Value) (key : Key),
      resolveKey i = .ok key → d.hasKey key = false →
      DI.get (fuel + 1) d rs i (some fb) = .ok (fb, d, rs)) ∧
    (∀ (fuel : Nat) (d : DI) (rs : RState) (i : Identifiable) (key : Key),
      resolveKey i = .ok key → d.hasKey key = false →
      DI.get (fuel + 1) d rs i none = .error (.err (unresolvedMsg key))) ∧
    (∀ (fuel : Nat) (d : DI) (rs : RState) (i : Identifiable) (fb : Value) (key : Key),
      resolveKey i = .ok key → d.hasKey key = true →
      DI.get (fuel + 1) d rs i (some fb) = DI.get (fuel + 1) d rs i none) ∧
    (∀ (fuel : Nat) (d : DI) (rs : RState) (i : Identifiable) (fb : Value) (key : Key)
      (b : Binding) (e : Err),
      resolveKey i = .ok key → mapGet d.bindings key = some b →
      (b.isSingleton = false ∨ (mapGet d.cache key = none ∧ b.lateResolve = false)) →
      evalF fuel d rs b.func = .error e →
      DI.get (fuel + 1) d rs i (some fb) = .error e) := by
  refine ⟨?_, ?_, ?_, ?_⟩
  · intro fuel d rs i fb key hk h
    simpa using get_of_hasKey_false fuel d rs i (some fb) key hk h
  · intro fuel d rs i key hk h
    simpa using get_of_hasKey_false fuel d rs i none key hk h
  · intro fuel d rs i fb key hk h
    exact get_found_fb_irrelevant fuel d rs i fb key hk h
  · intro fuel d rs i fb key b e hk hb hdisj herr
    cases hsing : b.isSingleton with
    | false =>
      rw [get_nonsingleton fuel d rs i (some fb) key b hk hb hsing, herr]
    | true =>
      rcases hdisj with hns | ⟨hc, hl⟩
      · rw [hsing] at hns; cases hns
      · rw [get_singleton_uncached fuel d rs i (some fb) key b hk hb hsing hc hl, herr]

/-- Container with a binding for "C" whose construction function resolves the
unbound key "B" — the nested failure scenario of the repository's own test
("Should throw when can not find a binding"). -/
def dNest : DI := .mk [(Key.str "C", ⟨.getI (.str "B"), false, false⟩)] [] []

theorem claim_C1_fallback_semantics_witness :
    DI.get (0 + 1) DI.empty ⟨0, []⟩ (.str "k") (some .undef) =
      .ok (.undef, DI.empty, ⟨0, []⟩) ∧
    DI.get (0 + 1) DI.empty ⟨0, []⟩ (.str "k") none =
      .error (.err "No binding for injectable \"k\"") ∧
    DI.get (2 + 1) dNest ⟨0, []⟩ (.str "C") (some (.num 1)) =
      .error (.err "No binding for injectable \"B\"") :=
  ⟨claim_C1_fallback_semantics.1 0 DI.empty ⟨0, []⟩ (.str "k") .undef (.str "k") rfl
      (by simp [DI.hasKey, DI.empty, DI.getBindingByKey, mapGet, getBindingByKeyList]),
   claim_C1_fallback_semantics.2.1 0 DI.empty ⟨0, []⟩ (.str "k") (.str "k") rfl
      (by simp [DI.hasKey, DI.empty, DI.getBindingByKey, mapGet, getBindingByKeyList]),
   claim_C1_fallback_semantics.2.2.2 2 dNest ⟨0, []⟩ (.str "C") (.num 1) (.str "C")
      ⟨.getI (.str "B"), false, false⟩ (.err "No binding for injectable \"B\"")
      rfl (by simp [dNest, DI.bindings, mapGet]) (Or.inl rfl)
      (by simp +decide [evalF, DI.get, dNest, resolveKey, Identifiable.falsy, mapGet, trySubs,
            unresolvedMsg, keyDisplay])⟩

/-- C4: when a container's local Binding Table has no entry for the key, `get`
consults the attached sub-modules in registration order and returns the first
sub-module's successful resolution computed by that sub-module's own `get`
over its own bindings and cache; the parent's Binding Table and Instance
Cache are left untouched (the parent does not re-cache the result), and only
the resolving sub-module's state is updated in place.  Conversely a
sub-module's `get` is a function of the sub-module alone — a key absent from
its own subtree (in particular one bound only in its parent or a sibling) is
simply unresolved there and throws. -/
theorem claim_C4_submodule_lookup :
    (∀ (fuel : Nat) (bs : List (Key × Binding)) (cache : List (Key × Value))
      (pre : List DI) (s : DI) (post : List DI) (rs : RState) (i : Identifiable)
      (fb : Option Value) (key : Key),
      resolveKey i = .ok key → mapGet bs key = none →
      (∀ p ∈ pre, p.hasKey key = false) → s.hasKey key = true →
      DI.get (fuel + 1) (.mk bs cache (pre ++ s :: post)) rs i fb =
        match DI.get (fuel + 1) s rs i none with
        | .error e => .error e
        | .ok (v, s', rs') => .ok (v, .mk bs cache (pre ++ s' :: post), rs')) ∧
    (∀ (fuel : Nat) (s : DI) (rs : RState) (i : Identifiable) (key : Key),
      resolveKey i = .ok key → s.hasKey key = false →
      DI.get (fuel + 1) s rs i none = .error (.err (unresolvedMsg key))) := by
  constructor
  · intro fuel bs cache pre s post rs i fb key hk hlocal hpre hs
    exact get_delegates fuel bs cache pre s post rs i fb key hk hlocal hpre hs
  · intro fuel s rs i key hk h
    simpa using get_of_hasKey_false fuel s rs i none key hk h

/-- A sub-module binding "s" to the literal 7, and a first sub-module that
does not have "s". -/
def subWith : DI := .mk [(Key.str "s", ⟨.lit (.num 7), true, false⟩)] [] []

theorem claim_C4_submodule_lookup_witness :
    DI.get (1 + 1) (.mk [] [] ([DI.empty] ++ subWith :: [])) ⟨0, []⟩ (.str "s") none =
      .ok (.num 7,
           .mk [] [] ([DI.empty] ++ (DI.mk [(Key.str "s", ⟨.lit (.num 7), true, false⟩)]
             [(Key.str "s", .num 7)] []) :: []), ⟨0, []⟩) ∧
    DI.get (0 + 1) DI.empty ⟨0, []⟩ (.str "s") none =
      .error (.err "No binding for injectable \"s\"") := by
  constructor
  · rw [claim_C4_submodule_lookup.1 1 [] [] [DI.empty] subWith [] ⟨0, []⟩ (.str "s") none
        (.str "s") rfl rfl
        (by intro p hp
            simp only [List.mem_singleton] at hp
            subst hp
            simp [DI.hasKey, DI.empty, DI.getBindingByKey, mapGet, getBindingByKeyList])
        (by simp [DI.hasKey, subWith, DI.getBindingByKey, mapGet])]
    simp +decide [DI.get, evalF, subWith, resolveKey, Identifiable.falsy, mapGet, mapSet,
      DI.bindings, DI.cache, DI.subModules]
  · exact claim_C4_submodule_lookup.2 0 DI.empty ⟨0, []⟩ (.str "s") (.str "s") rfl
      (by simp [DI.hasKey, DI.empty, DI.getBindingByKey, mapGet, getBindingByKeyList])

/-- C2: (i) a singleton binding whose instance is cached: every `get` returns
the identical cached value and leaves all state unchanged, so repeated `get`
yields reference-identical results; (ii) the first resolution of an uncached
singleton stores the constructed instance in the Instance Cache, and every
subsequent `get` on the resulting container returns exactly that instance;
(iii) re-binding evicts the cached singleton: in the scenario `bind(k, f1);
a = get(k); bind(k, f2); b = get(k)` with `f1`/`f2` constructing fresh objects
of classes `t1`/`t2`, the two results are distinct objects (`a !== b`) and `b`
is produced by `f2` (it carries class `t2` and a strictly newer identity). -/
theorem claim_C2_singleton_caching :
    (∀ (fuel : Nat) (d : DI) (rs : RState) (i : Identifiable) (fb : Option Value)
      (key : Key) (b : Binding) (v : Value),
      resolveKey i = .ok key → mapGet d.bindings key = some b → b.isSingleton = true →
      mapGet d.cache key = some v →
      DI.get (fuel + 1) d rs i fb = .ok (v, d, rs)) ∧
    (∀ (fuel : Nat) (d : DI) (rs : RState) (i : Identifiable) (key : Key) (b : Binding)
      (v : Value) (d' : DI) (rs' : RState),
      resolveKey i = .ok key → mapGet d.bindings key = some b → b.isSingleton = true →
      mapGet d.cache key = none → b.lateResolve = false →
      evalF fuel d rs b.func = .ok (v, d', rs') →
      DI.get (fuel + 1) d rs i none =
        .ok (v, .mk d'.bindings (mapSet d'.cache key v) d'.subModules, rs') ∧
      (∀ (fuel₂ : Nat) (rs₂ : RState) (fb₂ : Option Value),
        DI.get (fuel₂ + 1) (.mk d'.bindings (mapSet d'.cache key v) d'.subModules) rs₂ i fb₂ =
          .ok (v, .mk d'.bindings (mapSet d'.cache key v) d'.subModules, rs₂))) ∧
    (∀ (fuel : Nat) (d : DI) (rs : RState) (k : Identifiable) (key : Key) (t1 t2 : String),
      resolveKey k = .ok key → mapGet d.cache key = none →
      ∃ d1 d2 d3 d4,
        DI.bind d k (.fnArg (.fresh t1 [])) none = .ok d1 ∧
        DI.get (fuel + 2) d1 rs k none = .ok (.obj rs.nextId t1 [], d2, rs.bump) ∧
        DI.bind d2 k (.fnArg (.fresh t2 [])) none = .ok d3 ∧
        DI.get (fuel + 2) d3 rs.bump k none =
          .ok (.obj (rs.nextId + 1) t2 [], d4, rs.bump.bump) ∧
        (Value.obj rs.nextId t1 [] : Value) ≠ .obj (rs.nextId + 1) t2 []) := by
  refine ⟨?_, ?_, ?_⟩
  · intro fuel d rs i fb key b v hk hb hsing hc
    exact get_singleton_cached fuel d rs i fb key b v hk hb hsing hc
  · intro fuel d rs i key b v d' rs' hk hb hsing hc hlate heval
    have hfirst : DI.get (fuel + 1) d rs i none =
        .ok (v, .mk d'.bindings (mapSet d'.cache key v) d'.subModules, rs') := by
      rw [get_singleton_uncached fuel d rs i none key b hk hb hsing hc hlate, heval]
    refine ⟨hfirst, ?_⟩
    intro fuel₂ rs₂ fb₂
    have hbpres : d'.bindings = d.bindings := evalF_preserves_bindings fuel d rs b.func v d' rs' heval
    exact get_singleton_cached fuel₂ _ rs₂ i fb₂ key b v hk
      (by rw [DI.bindings_mk, hbpres]; exact hb) hsing
      (by rw [DI.cache_mk]; exact mapGet_mapSet_self d'.cache key v)
  · intro fuel d rs k key t1 t2 hk hc
    have hdel : mapDelete d.cache key = d.cache := mapDelete_of_absent _ _ hc
    have hdel2 : mapDelete (mapSet d.cache key (.obj rs.nextId t1 [])) key = d.cache :=
      mapDelete_mapSet_of_absent _ _ _ hc
    have hbind1 : DI.bind d k (.fnArg (.fresh t1 [])) none =
        .ok (.mk (mapSet d.bindings key ⟨.fresh t1 [], true, false⟩) d.cache d.subModules) := by
      simp [DI.bind, hk, hdel]
    have hget1 : DI.get (fuel + 2)
        (.mk (mapSet d.bindings key ⟨.fresh t1 [], true, false⟩) d.cache d.subModules) rs k none =
        .ok (.obj rs.nextId t1 [],
             .mk (mapSet d.bindings key ⟨.fresh t1 [], true, false⟩)
               (mapSet d.cache key (.obj rs.nextId t1 [])) d.subModules, rs.bump) := by
      rw [show fuel + 2 = (fuel + 1) + 1 from rfl,
          get_singleton_uncached (fuel + 1) _ rs k none key ⟨.fresh t1 [], true, false⟩ hk
            (by rw [DI.bindings_mk]; exact mapGet_mapSet_self d.bindings key _) rfl
            (by rw [DI.cache_mk]; exact hc) rfl,
          evalF_fresh_nil fuel _ rs t1]
      simp [DI.bindings_mk, DI.cache_mk, DI.subModules_mk]
    have hbind2 : DI.bind (.mk (mapSet d.bindings key ⟨.fresh t1 [], true, false⟩)
          (mapSet d.cache key (.obj rs.nextId t1 [])) d.subModules) k
          (.fnArg (.fresh t2 [])) none =
        .ok (.mk (mapSet (mapSet d.bindings key ⟨.fresh t1 [], true, false⟩) key
              ⟨.fresh t2 [], true, false⟩) d.cache d.subModules) := by
      simp [DI.bind, hk, DI.bindings_mk, DI.cache_mk, DI.subModules_mk, hdel2]
    have hget2 : DI.get (fuel + 2)
        (.mk (mapSet (mapSet d.bindings key ⟨.fresh t1 [], true, false⟩) key
          ⟨.fresh t2 [], true, false⟩) d.cache d.subModules) rs.bump k none =
        .ok (.obj (rs.nextId + 1) t2 [],
             .mk (mapSet (mapSet d.bindings key ⟨.fresh t1 [], true, false⟩) key
               ⟨.fresh t2 [], true, false⟩)
               (mapSet d.cache key (.obj (rs.nextId + 1) t2 [])) d.subModules,
             rs.bump.bump) := by
      rw [show fuel + 2 = (fuel + 1) + 1 from rfl,
          get_singleton_uncached (fuel + 1) _ rs.bump k none key ⟨.fresh t2 [], true, false⟩ hk
            (by rw [DI.bindings_mk]; exact mapGet_mapSet_self _ key _) rfl
            (by rw [DI.cache_mk]; exact hc) rfl,
          evalF_fresh_nil fuel _ rs.bump t2]
      simp [DI.bindings_mk, DI.cache_mk, DI.subModules_mk, RState.bump]
    refine ⟨_, _, _, _, hbind1, hget1, hbind2, hget2, ?_⟩
    intro hcontra
    simp only [Value.obj.injEq] at hcontra
    omega

theorem claim_C2_singleton_caching_witness :
    resolveKey (.str "k") = .ok (.str "k") ∧
    mapGet (DI.empty.cache) (.str "k") = none ∧
    ∃ d1 d2 d3 d4,
      DI.bind DI.empty (.str "k") (.fnArg (.fresh "T1" [])) none = .ok d1 ∧
      DI.get (0 + 2) d1 ⟨0, []⟩ (.str "k") none = .ok (.obj 0 "T1" [], d2, RState.bump ⟨0, []⟩) ∧
      DI.bind d2 (.str "k") (.fnArg (.fresh "T2" [])) none = .ok d3 ∧
      DI.get (0 + 2) d3 (RState.bump ⟨0, []⟩) (.str "k") none =
        .ok (.obj 1 "T2" [], d4, RState.bump (RState.bump ⟨0, []⟩)) ∧
      (Value.obj 0 "T1" [] : Value) ≠ .obj 1 "T2" [] :=
  ⟨rfl, rfl, claim_C2_singleton_caching.2.2 0 DI.empty ⟨0, []⟩ (.str "k") (.str "k")
    "T1" "T2" rfl rfl⟩

/-- C3: when an uncached singleton binding with `lateResolve = true` is
resolved, `get` allocates a Lazy Reference Proxy, stores it in the Instance
Cache and returns it — without invoking the construction function: the success
equation below holds uniformly in `b.func`, in particular for a function that
would throw, and the proxy cell records the captured function unevaluated.
The builder itself (`DIProxyBuilder`, source lines 40-66) invokes its stored
getter exactly once, on the first access, memoizes the result, and every
subsequent access returns the memoized instance with no further getter effect
(the state `σ` is returned untouched). -/
theorem claim_C3_lateResolve_proxy :
    (∀ (fuel : Nat) (d : DI) (rs : RState) (i : Identifiable) (fb : Option Value)
      (key : Key) (b : Binding),
      resolveKey i = .ok key → mapGet d.bindings key = some b →
      b.isSingleton = true → b.lateResolve = true → mapGet d.cache key = none →
      DI.get (fuel + 1) d rs i fb =
        .ok (.proxy rs.nextId,
             .mk d.bindings (mapSet d.cache key (.proxy rs.nextId)) d.subModules,
             { nextId := rs.nextId + 1, proxies := rs.proxies ++ [(rs.nextId, b.func)] })) ∧
    (∀ (σ α : Type) [Inhabited α] (g : σ → α × σ) (s : σ),
      (ProxyBuilder.init g).getInstance s = ((g s).1, ⟨true, some (g s).1, g⟩, (g s).2)) ∧
    (∀ (σ α : Type) [Inhabited α] (g : σ → α × σ) (a : α) (s : σ),
      (ProxyBuilder.mk true (some a) g).getInstance s = (a, ⟨true, some a, g⟩, s)) := by
  refine ⟨?_, ?_, ?_⟩
  · intro fuel d rs i fb key b hk hb hsing hlate hc
    exact get_singleton_late fuel d rs i fb key b hk hb hsing hc hlate
  · intro σ α inst g s
    rcases hgs : g s with ⟨a, s'⟩
    simp [ProxyBuilder.getInstance, ProxyBuilder.init, hgs]
  · intro σ α inst g a s
    simp [ProxyBuilder.getInstance]

/-- A container with an uncached lateResolve singleton whose construction
function would throw — returning a proxy anyway demonstrates that `get` does
not invoke it. -/
def dLate : DI := .mk [(Key.str "p", ⟨.throwE "boom", true, true⟩)] [] []

theorem claim_C3_lateResolve_proxy_witness :
    DI.get (0 + 1) dLate ⟨0, []⟩ (.str "p") none =
      .ok (.proxy 0, .mk [(Key.str "p", ⟨.throwE "boom", true, true⟩)]
             [(Key.str "p", .proxy 0)] [],
           { nextId := 1, proxies := [(0, .throwE "boom")] }) ∧
    (ProxyBuilder.init (fun n : Nat => (n + 100, n + 1))).getInstance 0 =
      (100, ⟨true, some 100, fun n : Nat => (n + 100, n + 1)⟩, 1) ∧
    (ProxyBuilder.mk true (some 100) (fun n : Nat => (n + 100, n + 1))).getInstance 1 =
      (100, ⟨true, some 100, fun n : Nat => (n + 100, n + 1)⟩, 1) := by
  refine ⟨?_, ?_, ?_⟩
  · have := claim_C3_lateResolve_proxy.1 0 dLate ⟨0, []⟩ (.str "p") none (.str "p")
      ⟨.throwE "boom", true, true⟩ rfl (by simp [dLate, DI.bindings_mk, mapGet]) rfl rfl rfl
    simpa [dLate, DI.bindings_mk, DI.cache_mk, DI.subModules_mk] using this
  · have := claim_C3_lateResolve_proxy.2.1 Nat Nat (fun n : Nat => (n + 100, n + 1)) 0
    simpa using this
  · have := claim_C3_lateResolve_proxy.2.2 Nat Nat (fun n : Nat => (n + 100, n + 1)) 100 1
    simpa using this

theorem clearList_eq_map : ∀ (subs : List DI), clearList subs = subs.map DI.clear
  | [] => rfl
  | s :: rest => by simp [clearList, clearList_eq_map rest]

/-- C5: binding a constructable target with a dependency array stores the
generated construction function over exactly that array; when evaluated with
the requesting container it resolves each element — a `DILiteral` to its
stored value unresolved, a `DIFactory` to its function applied to the
requesting container, anything else through `container.get` — and then invokes
the target with the resolved values: with `new` when `isClass` holds (a
non-reassignable prototype, producing a fresh object of the target's class),
and as a plain function call otherwise. -/
theorem claim_C5_array_dependency_resolution :
    (∀ (d : DI) (target : Identifiable) (deps : List Dep) (opts : Option Opts) (key : Key),
      constructable (unwrapToken target) = true → resolveKey target = .ok key →
      ∃ d', DI.bind d target (.arr deps) opts = .ok d' ∧
        ∃ b, mapGet d'.bindings key = some b ∧
          b.func = .construct (unwrapToken target) deps) ∧
    (∀ (fuel : Nat) (d : DI) (rs : RState) (v : Value),
      resolveDep (fuel + 1) d rs (.literalD v) = .ok (v, d, rs)) ∧
    (∀ (fuel : Nat) (d : DI) (rs : RState) (f : FExpr),
      resolveDep (fuel + 1) d rs (.factoryD f) = evalF (fuel + 1) d rs f) ∧
    (∀ (fuel : Nat) (d : DI) (rs : RState) (i : Identifiable),
      resolveDep (fuel + 1) d rs (.injD i) = DI.get fuel d rs i none) ∧
    (∀ (fuel : Nat) (d : DI) (rs : RState) (dep : Dep) (rest : List Dep),
      resolveDeps fuel d rs (dep :: rest) =
        match resolveDep fuel d rs dep with
        | .error er => .error er
        | .ok (v, d', rs') =>
          match resolveDeps fuel d' rs' rest with
          | .error er => .error er
          | .ok (vs, d'', rs'') => .ok (v :: vs, d'', rs'')) ∧
    (∀ (fuel : Nat) (d : DI) (rs : RState) (target : Identifiable) (deps : List Dep)
      (vals : List Value) (d' : DI) (rs' : RState),
      resolveDeps (fuel + 1) d rs deps = .ok (vals, d', rs') →
      evalF (fuel + 1) d rs (.construct target deps) =
        if isClass target = true then
          .ok (.obj rs'.nextId target.declaredName vals, d', rs'.bump)
        else
          .ok (.callResult target.declaredName vals, d', rs')) := by
  refine ⟨?_, ?_, ?_, ?_, ?_, ?_⟩
  · intro d target deps opts key hcon hk
    refine ⟨.mk (mapSet d.bindings key
        ⟨.construct (unwrapToken target) deps, (opts.getD {}).isSingleton.getD true,
         (match deps with
          | [] => false
          | _ :: _ => (opts.getD {}).lateResolve.getD false)⟩)
        (mapDelete d.cache key) d.subModules, ?_, ?_⟩
    · cases deps <;> simp [DI.bind, hcon, hk]
    · exact ⟨_, by rw [DI.bindings_mk]; exact mapGet_mapSet_self _ _ _, rfl⟩
  · intro fuel d rs v
    simp [resolveDep]
  · intro fuel d rs f
    simp [resolveDep]
  · intro fuel d rs i
    simp [resolveDep]
  · intro fuel d rs dep rest
    rw [resolveDeps]
  · intro fuel d rs target deps vals d' rs' hres
    by_cases hcls : isClass target = true
    · simp [evalF, hres, hcls]
    · simp [evalF, hres, hcls]

theorem claim_C5_array_dependency_resolution_witness :
    (∃ d', DI.bind DI.empty (.cls "C") (.arr [.literalD (.num 5), .injD (.cls "A")]) none = .ok d' ∧
      ∃ b, mapGet d'.bindings (.str "C") = some b ∧
        b.func = .construct (.cls "C") [.literalD (.num 5), .injD (.cls "A")]) ∧
    resolveDep (0 + 1) DI.empty ⟨0, []⟩ (.literalD (.num 5)) = .ok (.num 5, DI.empty, ⟨0, []⟩) ∧
    evalF (0 + 1) DI.empty ⟨0, []⟩ (.construct (.cls "C") [.literalD (.num 5)]) =
      .ok (.obj 0 "C" [.num 5], DI.empty, ⟨1, []⟩) ∧
    evalF (0 + 1) DI.empty ⟨0, []⟩ (.construct (.fn "f") [.literalD (.num 5)]) =
      .ok (.callResult "f" [.num 5], DI.empty, ⟨0, []⟩) := by
  refine ⟨?_, ?_, ?_, ?_⟩
  · exact claim_C5_array_dependency_resolution.1 DI.empty (.cls "C")
      [.literalD (.num 5), .injD (.cls "A")] none (.str "C") rfl rfl
  · exact claim_C5_array_dependency_resolution.2.1 0 DI.empty ⟨0, []⟩ (.num 5)
  · have := claim_C5_array_dependency_resolution.2.2.2.2.2 0 DI.empty ⟨0, []⟩ (.cls "C")
      [.literalD (.num 5)] [.num 5] DI.empty ⟨0, []⟩
      (by simp [resolveDeps, resolveDep])
    simpa [isClass, Identifiable.declaredName, RState.bump] using this
  · have := claim_C5_array_dependency_resolution.2.2.2.2.2 0 DI.empty ⟨0, []⟩ (.fn "f")
      [.literalD (.num 5)] [.num 5] DI.empty ⟨0, []⟩
      (by simp [resolveDeps, resolveDep])
    simpa [isClass, Identifiable.declaredName] using this

/-- C8 (spec-modelled `clear`): after `C.clear()` no previously bound key is
visible — `has` is false for every identifiable on the cleared container,
whose Binding Table and Instance Cache are empty; every attached sub-module
has itself been cleared recursively (each member of the cleared sub-module
list is the clear of the corresponding original and has no bindings), while
the sub-module links themselves stay attached (same number and order of
links). -/
theorem claim_C8_clear (d : DI) (i : Identifiable) (key : Key)
    (hk : resolveKey i = .ok key) :
    (DI.clear d).has i = .ok false ∧
    (∀ s ∈ (DI.clear d).subModules, s.hasKey key = false) ∧
    (DI.clear d).subModules = d.subModules.map DI.clear ∧
    (DI.clear d).subModules.length = d.subModules.length ∧
    (DI.clear d).bindings = [] ∧ (DI.clear d).cache = [] := by
  obtain ⟨bs, cache, subs⟩ := d
  refine ⟨?_, ?_, ?_, ?_, ?_, ?_⟩
  · simp [DI.has, hk, Except.map, DI.hasKey, clear_getBindingByKey_none]
  · intro s hs
    rw [DI.clear, DI.subModules_mk, clearList_eq_map] at hs
    obtain ⟨t, ht, rfl⟩ := List.mem_map.mp hs
    simp [DI.hasKey, clear_getBindingByKey_none]
  · rw [DI.clear, DI.subModules_mk, DI.subModules_mk, clearList_eq_map]
  · rw [DI.clear, DI.subModules_mk, DI.subModules_mk, clearList_length]
  · rw [DI.clear, DI.bindings_mk]
  · rw [DI.clear, DI.cache_mk]

theorem claim_C8_clear_witness :
    (DI.clear (.mk [(Key.str "a", ⟨.lit (.num 1), true, false⟩)]
        [(Key.str "a", .num 1)] [subWith])).has (.str "a") = .ok false ∧
    (DI.clear (.mk [(Key.str "a", ⟨.lit (.num 1), true, false⟩)]
        [(Key.str "a", .num 1)] [subWith])).subModules.length = 1 :=
  ⟨(claim_C8_clear _ (.str "a") (.str "a") rfl).1,
   ((claim_C8_clear (.mk [(Key.str "a", ⟨.lit (.num 1), true, false⟩)]
      [(Key.str "a", .num 1)] [subWith]) (.str "a") (.str "a") rfl).2.2.2.1)⟩
